import Mathlib

/-!
Verification development for the blinkyboosts boost-aggregation and
threshold-triggered dispatch engine.

This file gives a shallow embedding of the core data model and operations:

* `SatTracker` and its methods (`src/sat_tracker.rs`),
* the toggle-selection policy `trigger_toggles` / `check_total_threshold` /
  `sync_threshold_triggers` (`src/main.rs`),
* the boost filters (`src/boostboard.rs`),
* the per-listener dispatch flags of `listen_for_boostboard`,
  `listen_for_zaps` and `listen_for_nwc` (`src/main.rs`).

Modelling conventions:

* Rust `i64` values are modelled as unbounded `Int`; the `i64` range appears
  explicitly as a hypothesis where a claim is about the machine range.
  Rust `/` and `%` on `i64` truncate toward zero, so they are modelled by
  `Int.tdiv` / `Int.tmod`; a division that can panic (divisor `0`, or
  `i64::MIN / -1`) is modelled through `rdiv?` returning `Option`, and a
  function that can reach such a panic returns `Option` (`none` = panic).
* `HashMap` is modelled as an association list with `alookup` / `ainsert`;
  insertion replaces an existing binding in place.
* Effect dispatch (`trigger_single_toggle`) is pure I/O whose result does not
  influence the control flow of toggle selection or trigger memory in the
  source (a failed dispatch is only logged); it is modelled as succeeding, and
  `trigger_toggles` returns the list of toggles that were fired (dispatched).
  The protocol-specific payload fields of `Toggle` (`osc`, `artnet`, `sacn`,
  `wled`) and the purely informational metadata fields of `Boostagram` are
  opaque to all modelled logic (they are only forwarded to dispatch) and are
  omitted from the embedded records.
-/

/-- Association-list lookup, modelling `HashMap::get`. -/
def alookup {α β : Type} [DecidableEq α] : List (α × β) → α → Option β
  | [], _ => none
  | (k, v) :: rest, key => if k = key then some v else alookup rest key

/-- Association-list insert/replace, modelling `HashMap::insert`. -/
def ainsert {α β : Type} [DecidableEq α] : List (α × β) → α → β → List (α × β)
  | [], key, val => [(key, val)]
  | (k, v) :: rest, key, val =>
    if k = key then (key, val) :: rest else (k, v) :: ainsert rest key val

/-- Association-list add-with-default-zero, modelling
`*map.entry(key).or_insert(0) += n`. -/
def abump : List (String × Int) → String → Int → List (String × Int)
  | [], key, n => [(key, n)]
  | (k, v) :: rest, key, n =>
    if k = key then (k, v + n) :: rest else (k, v) :: abump rest key n

/-- The `i64` range bound `2^63`. -/
def i64half : Int := 9223372036854775808

/-- Rust `i64` division: truncation toward zero; panics (`none`) on division
by zero or on the overflowing `i64::MIN / -1`. -/
def rdiv? (a b : Int) : Option Int :=
  if b = 0 ∨ (a = -i64half ∧ b = -1) then none else some (Int.tdiv a b)

/-- `SatTracker` from `src/sat_tracker.rs`: global total, per-source totals,
and per-threshold trigger memory. -/
structure SatTracker where
  total : Int
  by_source : List (String × Int)
  last_triggered_multiple : List (Int × Int)
  triggered_once : List (Int × Bool)
deriving Repr, DecidableEq

/-- `SatTracker::new` (all fields `Default`). -/
def SatTracker.new : SatTracker :=
  { total := 0, by_source := [], last_triggered_multiple := [], triggered_once := [] }

/-- `SatTracker::add`: add sats from a boost/zap, returning the updated
tracker and the new total (the Rust method mutates `self` and returns the
new total). -/
def SatTracker.add (t : SatTracker) (source : String) (sats : Int) :
    SatTracker × Int :=
  let total := t.total + sats
  ({ t with total := total, by_source := abump t.by_source source sats }, total)

/-- `SatTracker::get_total`. -/
def SatTracker.get_total (t : SatTracker) : Int := t.total

/-- `SatTracker::should_trigger_threshold`. Divisions by `threshold` go
through `rdiv?`, so the result is `none` exactly when the Rust code would
panic on a division. -/
def SatTracker.should_trigger_threshold (t : SatTracker)
    (previous_total new_total threshold : Int) (trigger_multiple : Bool) :
    Option Bool :=
  if new_total < threshold then
    some false
  else if trigger_multiple then
    match rdiv? previous_total threshold with
    | none => none
    | some previous_multiple =>
      match rdiv? new_total threshold with
      | none => none
      | some new_multiple =>
        if new_multiple > previous_multiple then
          let last := (alookup t.last_triggered_multiple threshold).getD 0
          some (decide (new_multiple > last))
        else
          some false
  else
    some (!((alookup t.triggered_once threshold).getD false))

/-- `SatTracker::update_last_triggered_threshold`. -/
def SatTracker.update_last_triggered_threshold (t : SatTracker)
    (threshold : Int) (trigger_multiple : Bool) : Option SatTracker :=
  if trigger_multiple then
    match rdiv? t.total threshold with
    | none => none
    | some current_multiple =>
      some { t with last_triggered_multiple :=
               ainsert t.last_triggered_multiple threshold current_multiple }
  else
    some { t with triggered_once := ainsert t.triggered_once threshold true }

/-- `SatTracker::sync_trigger_state`: seed the trigger memory for each
configured `(threshold, trigger_multiple)` pair from the current total. -/
def SatTracker.sync_trigger_state (t : SatTracker) :
    List (Int × Bool) → Option SatTracker
  | [] => some t
  | (threshold, trigger_multiple) :: rest =>
    if trigger_multiple then
      match rdiv? t.total threshold with
      | none => none
      | some current_multiple =>
        SatTracker.sync_trigger_state
          { t with last_triggered_multiple :=
              ainsert t.last_triggered_multiple threshold current_multiple }
          rest
    else if t.total ≥ threshold then
      SatTracker.sync_trigger_state
        { t with triggered_once := ainsert t.triggered_once threshold true } rest
    else
      SatTracker.sync_trigger_state t rest

/-- The spec-side formula of claim C1 for `should_trigger_threshold`:
false when `new_total < threshold`; with `trigger_multiple`, true iff the
new multiple exceeds both the previous multiple and the stored
last-triggered multiple (default 0); without, true iff the stored
`triggered_once` flag is unset or false. -/
def shouldTriggerSpec (t : SatTracker)
    (previous_total new_total threshold : Int) (trigger_multiple : Bool) :
    Bool :=
  if new_total < threshold then
    false
  else if trigger_multiple then
    decide (Int.tdiv new_total threshold > Int.tdiv previous_total threshold) &&
      decide (Int.tdiv new_total threshold >
        (alookup t.last_triggered_multiple threshold).getD 0)
  else
    !((alookup t.triggered_once threshold).getD false)

/-- Tracker with an empty trigger memory and total 1100, as reached after the
first two boosts of the C1 example sequence. -/
def c1TrackerEmpty : SatTracker :=
  { total := 1100, by_source := [("Boostboard", 1100)],
    last_triggered_multiple := [], triggered_once := [] }

/-- Tracker after recording multiple 1 for threshold 1000. -/
def c1TrackerAfter : SatTracker :=
  { total := 2100, by_source := [("Boostboard", 2100)],
    last_triggered_multiple := [(1000, 1)], triggered_once := [] }

/-- C1: `should_trigger_threshold` returns false whenever
`new_total < threshold`; otherwise with `trigger_multiple` it is true iff the
new multiple of the threshold exceeds both the previous multiple and the
stored last-triggered multiple (0 when absent), and without
`trigger_multiple` it is true iff the stored `triggered_once` flag is unset
or false.  For threshold 1000 with `trigger_multiple` and empty trigger
memory, the calls (0,600), (600,1100), then after recording multiple 1,
(1100,1600), (1600,2100) give false, true, false, true. -/
theorem should_trigger_threshold_spec (t : SatTracker)
    (previous_total new_total threshold : Int) (trigger_multiple : Bool)
    (hth : 0 < threshold) :
    t.should_trigger_threshold previous_total new_total threshold
        trigger_multiple =
      some (shouldTriggerSpec t previous_total new_total threshold
        trigger_multiple) ∧
    SatTracker.should_trigger_threshold
        { c1TrackerEmpty with total := 600 } 0 600 1000 true = some false ∧
    c1TrackerEmpty.should_trigger_threshold 600 1100 1000 true = some true ∧
    SatTracker.should_trigger_threshold
        { c1TrackerAfter with total := 1600 } 1100 1600 1000 true =
      some false ∧
    c1TrackerAfter.should_trigger_threshold 1600 2100 1000 true = some true := by
  have hne : threshold ≠ 0 := by omega
  have hm1 : ¬ (threshold = 0 ∨ (previous_total = -i64half ∧ threshold = -1)) := by
    simp [i64half]; omega
  have hm2 : ¬ (threshold = 0 ∨ (new_total = -i64half ∧ threshold = -1)) := by
    simp [i64half]; omega
  refine ⟨?_, by decide, by decide, by decide, by decide⟩
  unfold SatTracker.should_trigger_threshold shouldTriggerSpec rdiv?
  by_cases hlt : new_total < threshold
  · simp [hlt]
  · cases trigger_multiple with
    | false => simp [hlt]
    | true =>
      simp only [hlt, if_false, if_true, hm1, hm2]
      by_cases hgt : Int.tdiv new_total threshold > Int.tdiv previous_total threshold
      · simp [hgt]
      · simp [hgt]

/-- Witness for C1: instantiation at the second call of the example
sequence, with the positivity hypothesis discharged at threshold 1000. -/
theorem should_trigger_threshold_spec_witness :
    c1TrackerEmpty.should_trigger_threshold 600 1100 1000 true =
      some (shouldTriggerSpec c1TrackerEmpty 600 1100 1000 true) ∧
    shouldTriggerSpec c1TrackerEmpty 600 1100 1000 true = true :=
  ⟨(should_trigger_threshold_spec c1TrackerEmpty 600 1100 1000 true
      (by decide)).1, by decide⟩

/-- `Toggle` from `src/config.rs`, restricted to the fields the toggle
selection policy reads.  Serde defaults: `threshold = 0`,
`is_default = false`, `use_total = false`, `trigger_multiple = true`,
`endswith_range = none`.  The `u8` bounds of `endswith_range` are modelled
as `Nat`. -/
structure Toggle where
  threshold : Int
  output : String
  is_default : Bool
  use_total : Bool
  trigger_multiple : Bool
  endswith_range : Option (Nat × Nat)
deriving Repr, DecidableEq

/-- The serde default for `Toggle.threshold` (`#[serde(default)]`). -/
def Toggle.defaultThreshold : Int := 0

/-- The serde default for `Toggle.trigger_multiple` (`default_true`). -/
def Toggle.defaultTriggerMultiple : Bool := true

/-- `let last_digit = (sats % 10).abs() as u8` of `trigger_toggles`,
as the total mathematical value: Rust `%` is `Int.tmod`, and the absolute
value of a number in `(-10, 10)` never overflows `abs` nor the `u8` cast. -/
def lastDigit (sats : Int) : Nat := (Int.tmod sats 10).natAbs

/-- Rust `i64::abs`, which panics (`none`) exactly at `i64::MIN`. -/
def rustAbs? (a : Int) : Option Int :=
  if a = -i64half then none else some |a|

/-- The checked model of `(sats % 10).abs() as u8`: `none` exactly where the
Rust expression would panic; the `as u8` cast truncates modulo 256. -/
def lastDigitU8? (sats : Int) : Option Nat :=
  (rustAbs? (Int.tmod sats 10)).map fun a => a.toNat % 256

/-- The digit-range admission test of `trigger_toggles`: a toggle with
`endswith_range = Some((start, end))` is skipped when
`last_digit < start || last_digit > end`. -/
def digitOk (r : Option (Nat × Nat)) (d : Nat) : Bool :=
  match r with
  | none => true
  | some (s, e) => !(decide (d < s) || decide (d > e))

/-- `check_total_threshold` from `src/main.rs`: with no tracker, false; with
a tracker, read `new_total`, reconstruct `previous_total`, consult
`should_trigger_threshold` and, when it fires, record the trigger memory via
`update_last_triggered_threshold`. -/
def checkTotalThreshold (tr : Option SatTracker) (threshold : Int)
    (trigger_multiple : Bool) (boost_amount : Int) :
    Option (Bool × Option SatTracker) :=
  match tr with
  | none => some (false, none)
  | some t =>
    let new_total := t.get_total
    let previous_total := new_total - boost_amount
    match t.should_trigger_threshold previous_total new_total threshold
        trigger_multiple with
    | none => none
    | some should =>
      if should then
        match t.update_last_triggered_threshold threshold trigger_multiple with
        | none => none
        | some t' => some (true, some t')
      else
        some (false, some t)

/-- One iteration of the first (non-default) loop of `trigger_toggles`:
decide `should_trigger` (threshold check first when `threshold > 0`, else
eligible iff an `endswith_range` is present), then apply the digit filter;
returns whether the toggle fired and the tracker as left behind.  Note that
the digit filter runs after the threshold check, so the tracker returned by
`checkTotalThreshold` is kept even when the toggle is then skipped. -/
def firstPassStep (sats : Int) (last_digit : Nat) (toggle : Toggle)
    (tr : Option SatTracker) : Option (Bool × Option SatTracker) :=
  match (if toggle.threshold > 0 then
           checkTotalThreshold tr toggle.threshold toggle.trigger_multiple sats
         else if toggle.endswith_range.isSome then some (true, tr)
         else some (false, tr)) with
  | none => none
  | some (should, tr') =>
    if should then
      if digitOk toggle.endswith_range last_digit then some (true, tr')
      else some (false, tr')
    else
      some (false, tr')

/-- The first (non-default) loop of `trigger_toggles` over a toggle list,
collecting the fired toggles in order. -/
def firstPass (sats : Int) (d : Nat) (tr : Option SatTracker) :
    List Toggle → Option (List Toggle × Option SatTracker)
  | [] => some ([], tr)
  | toggle :: rest =>
    match firstPassStep sats d toggle tr with
    | none => none
    | some (fired, tr') =>
      match firstPass sats d tr' rest with
      | none => none
      | some (fs, tr'') => some ((if fired then [toggle] else []) ++ fs, tr'')

/-- The second (default) loop of `trigger_toggles`: every default toggle
whose `endswith_range` admits the last digit fires. -/
def defaultPass (toggles : List Toggle) (d : Nat) : List Toggle :=
  (toggles.filter fun t => t.is_default).filter fun t =>
    digitOk t.endswith_range d

/-- `trigger_toggles` from `src/main.rs`: no configured toggles fires
nothing; otherwise run the non-default pass and, only when it fired nothing,
the default pass.  Returns the fired toggles and the tracker. -/
def trigger_toggles (toggles : Option (List Toggle)) (sats : Int)
    (tr : Option SatTracker) : Option (List Toggle × Option SatTracker) :=
  match toggles with
  | none => some ([], tr)
  | some ts =>
    let d := lastDigit sats
    match firstPass sats d tr (ts.filter fun t => !t.is_default) with
    | none => none
    | some (fired, tr') =>
      if fired.isEmpty then some (defaultPass ts d, tr')
      else some (fired, tr')

/-- `sync_threshold_triggers` from `src/main.rs`: collect
`(threshold, trigger_multiple)` for every toggle with
`!is_default && use_total` (with no `threshold > 0` filter) and hand them to
`SatTracker::sync_trigger_state` when non-empty. -/
def sync_threshold_triggers (toggles : Option (List Toggle))
    (t : SatTracker) : Option SatTracker :=
  match toggles with
  | none => some t
  | some ts =>
    let thresholds := (ts.filter fun tg => !tg.is_default && tg.use_total).map
      fun tg => (tg.threshold, tg.trigger_multiple)
    if thresholds.isEmpty then some t
    else t.sync_trigger_state thresholds

lemma natAbs_tmod_ten : ∀ a : Int, (Int.tmod a 10).natAbs = a.natAbs % 10
  | .ofNat m => rfl
  | .negSucc m => by
    show (-(Int.ofNat ((m + 1) % 10))).natAbs = (m + 1) % 10
    rw [Int.natAbs_neg]
    rfl

/-- C10: the last-digit computation `(sats % 10).abs() as u8` is total on
every `i64` (no panic, including at `i64::MIN`) and equals
`abs(sats) % 10`, a value between 0 and 9. -/
theorem lastDigitU8_total (sats : Int)
    (hlo : -i64half ≤ sats) (hhi : sats < i64half) :
    lastDigitU8? sats = some (sats.natAbs % 10) ∧ sats.natAbs % 10 ≤ 9 ∧
      lastDigitU8? sats = some (lastDigit sats) := by
  have h9 : (Int.tmod sats 10).natAbs ≤ 9 := by
    rw [natAbs_tmod_ten]
    omega
  have hne : Int.tmod sats 10 ≠ -i64half := by
    intro h
    have := congrArg Int.natAbs h
    rw [natAbs_tmod_ten] at this
    simp [i64half] at this
    omega
  have habs : |Int.tmod sats 10| = (((Int.tmod sats 10).natAbs : Nat) : Int) :=
    Int.abs_eq_natAbs _
  constructor
  · unfold lastDigitU8? rustAbs?
    rw [if_neg hne]
    simp only [Option.map_some']
    rw [habs, Int.toNat_natCast, Nat.mod_eq_of_lt (by omega), natAbs_tmod_ten]
  refine ⟨by omega, ?_⟩
  unfold lastDigitU8? rustAbs? lastDigit
  rw [if_neg hne]
  simp only [Option.map_some']
  rw [habs, Int.toNat_natCast, Nat.mod_eq_of_lt (by omega)]

/-- Witness for C10 at `sats = i64::MIN`: the computation succeeds and
yields 8 (the last digit of 9223372036854775808). -/
theorem lastDigitU8_total_witness :
    lastDigitU8? (-i64half) = some ((-i64half : Int).natAbs % 10) ∧
      (-i64half : Int).natAbs % 10 ≤ 9 ∧
      lastDigitU8? (-i64half) = some (lastDigit (-i64half)) :=
  lastDigitU8_total (-i64half) (by decide) (by decide)

lemma rdiv_pos (a b : Int) (hb : 0 < b) : rdiv? a b = some (Int.tdiv a b) := by
  unfold rdiv?
  rw [if_neg]
  rintro (h | ⟨_, h⟩) <;> omega

lemma alookup_ainsert_self {α β : Type} [DecidableEq α]
    (l : List (α × β)) (k : α) (v : β) : alookup (ainsert l k v) k = some v := by
  induction l with
  | nil => simp [ainsert, alookup]
  | cons p rest ih =>
    obtain ⟨k', v'⟩ := p
    by_cases h : k' = k
    · subst h; simp [ainsert, alookup]
    · simp [ainsert, alookup, h, ih]

lemma alookup_ainsert_ne {α β : Type} [DecidableEq α]
    (l : List (α × β)) (k k0 : α) (v : β) (h : k ≠ k0) :
    alookup (ainsert l k v) k0 = alookup l k0 := by
  induction l with
  | nil => simp [ainsert, alookup, h]
  | cons p rest ih =>
    obtain ⟨k', v'⟩ := p
    by_cases h' : k' = k
    · subst h'; simp [ainsert, alookup, h]
    · simp [ainsert, alookup, h']
      rw [ih]

lemma sync_total (l : List (Int × Bool)) :
    ∀ t t' : SatTracker, t.sync_trigger_state l = some t' → t'.total = t.total := by
  induction l with
  | nil =>
    intro t t' h
    simp [SatTracker.sync_trigger_state] at h
    rw [← h]
  | cons p rest ih =>
    intro t t' h
    obtain ⟨th, tm⟩ := p
    unfold SatTracker.sync_trigger_state at h
    cases tm with
    | true =>
      simp only [if_true] at h
      cases hr : rdiv? t.total th with
      | none => rw [hr] at h; cases h
      | some m =>
        rw [hr] at h
        exact ih { t with last_triggered_multiple := ainsert t.last_triggered_multiple th m } t' h
    | false =>
      simp only [Bool.false_eq_true, if_false] at h
      by_cases hge : t.total ≥ th
      · rw [if_pos hge] at h
        exact ih { t with triggered_once := ainsert t.triggered_once th true } t' h
      · rw [if_neg hge] at h
        exact ih t t' h

lemma sync_last_lookup (l : List (Int × Bool)) :
    ∀ t t' : SatTracker, t.sync_trigger_state l = some t' → ∀ th0,
      alookup t'.last_triggered_multiple th0 =
          alookup t.last_triggered_multiple th0 ∨
        alookup t'.last_triggered_multiple th0 = some (Int.tdiv t.total th0) := by
  induction l with
  | nil =>
    intro t t' h th0
    simp [SatTracker.sync_trigger_state] at h
    rw [← h]
    exact Or.inl rfl
  | cons p rest ih =>
    intro t t' h th0
    obtain ⟨th, tm⟩ := p
    unfold SatTracker.sync_trigger_state at h
    cases tm with
    | true =>
      simp only [if_true] at h
      cases hr : rdiv? t.total th with
      | none => rw [hr] at h; cases h
      | some m =>
        rw [hr] at h
        have hm : m = Int.tdiv t.total th := by
          unfold rdiv? at hr
          by_cases hc : th = 0 ∨ (t.total = -i64half ∧ th = -1)
          · rw [if_pos hc] at hr; cases hr
          · rw [if_neg hc] at hr
            exact (Option.some_inj.mp hr).symm
        rcases ih { t with last_triggered_multiple := ainsert t.last_triggered_multiple th m } t' h th0 with h1 | h1
        · by_cases hth : th = th0
          · subst hth
            rw [h1, alookup_ainsert_self, hm]
            exact Or.inr rfl
          · rw [h1, alookup_ainsert_ne _ _ _ _ hth]
            exact Or.inl rfl
        · exact Or.inr h1
    | false =>
      simp only [Bool.false_eq_true, if_false] at h
      by_cases hge : t.total ≥ th
      · rw [if_pos hge] at h
        exact ih { t with triggered_once := ainsert t.triggered_once th true }
          t' h th0
      · rw [if_neg hge] at h
        exact ih t t' h th0

lemma sync_once_lookup (l : List (Int × Bool)) :
    ∀ t t' : SatTracker, t.sync_trigger_state l = some t' → ∀ th0,
      alookup t'.triggered_once th0 = alookup t.triggered_once th0 ∨
        (alookup t'.triggered_once th0 = some true ∧ t.total ≥ th0) := by
  induction l with
  | nil =>
    intro t t' h th0
    simp [SatTracker.sync_trigger_state] at h
    rw [← h]
    exact Or.inl rfl
  | cons p rest ih =>
    intro t t' h th0
    obtain ⟨th, tm⟩ := p
    unfold SatTracker.sync_trigger_state at h
    cases tm with
    | true =>
      simp only [if_true] at h
      cases hr : rdiv? t.total th with
      | none => rw [hr] at h; cases h
      | some m =>
        rw [hr] at h
        exact ih { t with last_triggered_multiple := ainsert t.last_triggered_multiple th m } t' h th0
    | false =>
      simp only [Bool.false_eq_true, if_false] at h
      by_cases hge : t.total ≥ th
      · rw [if_pos hge] at h
        rcases ih { t with triggered_once := ainsert t.triggered_once th true }
            t' h th0 with h1 | h1
        · by_cases hth : th = th0
          · subst hth
            rw [h1, alookup_ainsert_self]
            exact Or.inr ⟨rfl, hge⟩
          · rw [h1, alookup_ainsert_ne _ _ _ _ hth]
            exact Or.inl rfl
        · exact Or.inr h1
      · rw [if_neg hge] at h
        exact ih t t' h th0

lemma sync_some (l : List (Int × Bool)) :
    ∀ t : SatTracker, (∀ p ∈ l, 0 < p.1) →
      ∃ t', t.sync_trigger_state l = some t' := by
  induction l with
  | nil => intro t _; exact ⟨t, rfl⟩
  | cons p rest ih =>
    intro t hpos
    obtain ⟨th, tm⟩ := p
    have hth : (0 : Int) < th := hpos (th, tm) (List.mem_cons_self _ _)
    have hrest : ∀ p ∈ rest, (0 : Int) < p.1 := fun p hp =>
      hpos p (List.mem_cons_of_mem _ hp)
    unfold SatTracker.sync_trigger_state
    cases tm with
    | true =>
      simp only [if_true]
      rw [rdiv_pos _ _ hth]
      exact ih _ hrest
    | false =>
      simp only [Bool.false_eq_true, if_false]
      by_cases hge : t.total ≥ th
      · rw [if_pos hge]; exact ih _ hrest
      · rw [if_neg hge]; exact ih _ hrest

lemma sync_sets (l : List (Int × Bool)) :
    ∀ t t' : SatTracker, t.sync_trigger_state l = some t' →
      (∀ p ∈ l, 0 < p.1) → ∀ th tm, (th, tm) ∈ l →
      (tm = true → alookup t'.last_triggered_multiple th =
        some (Int.tdiv t.total th)) ∧
      (tm = false → t.total ≥ th → alookup t'.triggered_once th = some true) := by
  induction l with
  | nil => intro t t' _ _ th tm hmem; cases hmem
  | cons p rest ih =>
    intro t t' h hpos th tm hmem
    obtain ⟨th1, tm1⟩ := p
    have hth1 : (0 : Int) < th1 := hpos (th1, tm1) (List.mem_cons_self _ _)
    have hrest : ∀ p ∈ rest, (0 : Int) < p.1 := fun p hp =>
      hpos p (List.mem_cons_of_mem _ hp)
    unfold SatTracker.sync_trigger_state at h
    rcases List.mem_cons.mp hmem with heq | hmem'
    · rw [show th = th1 from congrArg Prod.fst heq,
         show tm = tm1 from congrArg Prod.snd heq]
      cases tm1 with
      | true =>
        simp only [if_true] at h
        rw [rdiv_pos _ _ hth1] at h
        refine ⟨fun _ => ?_, fun hf => Bool.noConfusion hf⟩
        rcases sync_last_lookup rest { t with last_triggered_multiple := ainsert t.last_triggered_multiple th1 (Int.tdiv t.total th1) } t' h th1 with h1 | h1
        · rw [h1, alookup_ainsert_self]
        · exact h1
      | false =>
        simp only [Bool.false_eq_true, if_false] at h
        refine ⟨fun hf => Bool.noConfusion hf, fun _ hge => ?_⟩
        rw [if_pos hge] at h
        rcases sync_once_lookup rest
            { t with triggered_once := ainsert t.triggered_once th1 true }
            t' h th1 with h1 | h1
        · rw [h1, alookup_ainsert_self]
        · exact h1.1
    · cases tm1 with
      | true =>
        simp only [if_true] at h
        rw [rdiv_pos _ _ hth1] at h
        exact ih { t with last_triggered_multiple := ainsert t.last_triggered_multiple th1 (Int.tdiv t.total th1) } t' h hrest th tm hmem'
      | false =>
        simp only [Bool.false_eq_true, if_false] at h
        by_cases hge : t.total ≥ th1
        · rw [if_pos hge] at h
          exact ih { t with triggered_once := ainsert t.triggered_once th1 true }
            t' h hrest th tm hmem'
        · rw [if_neg hge] at h
          exact ih t t' h hrest th tm hmem'

/-- The tracker after a backfill totalling 2500 sats, with no trigger
memory yet. -/
def c4Tracker : SatTracker := { SatTracker.new with total := 2500 }

/-- C4: `sync_trigger_state` succeeds on positive thresholds and, for every
`(threshold, trigger_multiple)` pair of its argument, seeds
`last_triggered_multiple[threshold] = total / threshold` when
`trigger_multiple`, and otherwise sets `triggered_once[threshold] = true`
exactly when `total ≥ threshold`, leaving that entry unchanged when
`total < threshold`; the total itself is untouched.  In particular, with
total 2500 and threshold 1000 with `trigger_multiple`, it seeds
`last_triggered_multiple[1000] = 2`. -/
theorem sync_trigger_state_spec (t : SatTracker)
    (thresholds : List (Int × Bool)) (hpos : ∀ p ∈ thresholds, 0 < p.1) :
    (∃ t', t.sync_trigger_state thresholds = some t' ∧
      t'.total = t.total ∧
      ∀ th tm, (th, tm) ∈ thresholds →
        (tm = true → alookup t'.last_triggered_multiple th =
          some (Int.tdiv t.total th)) ∧
        (tm = false → t.total ≥ th →
          alookup t'.triggered_once th = some true) ∧
        (tm = false → t.total < th →
          alookup t'.triggered_once th = alookup t.triggered_once th)) ∧
    c4Tracker.sync_trigger_state [(1000, true)] =
      some { c4Tracker with last_triggered_multiple := [(1000, 2)] } := by
  refine ⟨?_, by decide⟩
  obtain ⟨t', ht'⟩ := sync_some thresholds t hpos
  refine ⟨t', ht', sync_total thresholds t t' ht', fun th tm hmem => ?_⟩
  obtain ⟨h1, h2⟩ := sync_sets thresholds t t' ht' hpos th tm hmem
  refine ⟨h1, h2, fun _ hlt => ?_⟩
  rcases sync_once_lookup thresholds t t' ht' th with h3 | h3
  · exact h3
  · omega

/-- Witness for C4: the backfill seeding scenario, total 2500 with the
single configured pair (1000, trigger_multiple). -/
theorem sync_trigger_state_spec_witness :
    (∃ t', c4Tracker.sync_trigger_state [(1000, true)] = some t' ∧
      t'.total = c4Tracker.total ∧
      ∀ th tm, (th, tm) ∈ [((1000 : Int), true)] →
        (tm = true → alookup t'.last_triggered_multiple th =
          some (Int.tdiv c4Tracker.total th)) ∧
        (tm = false → c4Tracker.total ≥ th →
          alookup t'.triggered_once th = some true) ∧
        (tm = false → c4Tracker.total < th →
          alookup t'.triggered_once th = alookup c4Tracker.triggered_once th)) ∧
    c4Tracker.sync_trigger_state [(1000, true)] =
      some { c4Tracker with last_triggered_multiple := [(1000, 2)] } :=
  sync_trigger_state_spec c4Tracker [(1000, true)] (by decide)

/-- A sequence of `SatTracker::add` calls, in order. -/
def runAdds (t : SatTracker) : List (String × Int) → SatTracker
  | [] => t
  | (s, n) :: rest => runAdds (t.add s n).1 rest

/-- Counterexample to C7 as stated: `add` accepts any `i64`, so a single
call with sats `-5` strictly decreases the total — the totals of an
arbitrary `add` sequence are not monotonically non-decreasing. -/
theorem add_monotonic_counterexample :
    ((SatTracker.new.add "Zaps" (-5)).1).total < SatTracker.new.total ∧
      (SatTracker.new.add "Zaps" (-5)).2 = -5 := by
  decide

lemma runAdds_total (calls : List (String × Int)) :
    ∀ t : SatTracker, (runAdds t calls).total =
      t.total + (calls.map Prod.snd).sum := by
  induction calls with
  | nil => intro t; simp [runAdds]
  | cons c rest ih =>
    intro t
    obtain ⟨s, n⟩ := c
    simp only [runAdds, List.map_cons, List.sum_cons]
    rw [ih]
    show t.total + n + (rest.map Prod.snd).sum = _
    ring

lemma update_total (t : SatTracker) (th : Int) (tm : Bool) (t' : SatTracker)
    (h : t.update_last_triggered_threshold th tm = some t') :
    t'.total = t.total := by
  unfold SatTracker.update_last_triggered_threshold at h
  cases tm with
  | true =>
    simp only [if_true] at h
    cases hr : rdiv? t.total th with
    | none => rw [hr] at h; cases h
    | some m =>
      rw [hr] at h
      cases h
      rfl
  | false =>
    simp only [Bool.false_eq_true, if_false] at h
    cases h
    rfl

/-- C7 (amended): each `add` returns the new total; after any `add`
sequence the total equals the starting total plus the sum of all sats
arguments; the totals are non-decreasing provided every added sats is
nonnegative; and no other tracker operation (`should_trigger_threshold`,
`update_last_triggered_threshold`, `sync_trigger_state`) changes the
total. -/
theorem add_total_props :
    (∀ (t : SatTracker) (s : String) (n : Int), (t.add s n).2 = (t.add s n).1.total) ∧
    (∀ (t : SatTracker) (calls : List (String × Int)),
      (runAdds t calls).total = t.total + (calls.map Prod.snd).sum) ∧
    (∀ (t : SatTracker) (calls : List (String × Int)),
      (∀ c ∈ calls, 0 ≤ c.2) → t.total ≤ (runAdds t calls).total) ∧
    (∀ (t : SatTracker) (s : String) (n : Int), 0 ≤ n →
      t.total ≤ (t.add s n).1.total) ∧
    (∀ (t : SatTracker) (th : Int) (tm : Bool) (t' : SatTracker),
      t.update_last_triggered_threshold th tm = some t' → t'.total = t.total) ∧
    (∀ (t : SatTracker) (l : List (Int × Bool)) (t' : SatTracker),
      t.sync_trigger_state l = some t' → t'.total = t.total) := by
  refine ⟨fun t s n => rfl, fun t calls => runAdds_total calls t, ?_, ?_,
    update_total, fun t l t' h => sync_total l t t' h⟩
  · intro t calls hnn
    rw [runAdds_total calls t]
    have : 0 ≤ (calls.map Prod.snd).sum := by
      apply List.sum_nonneg
      intro x hx
      rcases List.mem_map.mp hx with ⟨c, hc, rfl⟩
      exact hnn c hc
    omega
  · intro t s n hn
    show t.total ≤ t.total + n
    omega

/-- Witness for C7 (amended): a concrete two-call sequence with nonnegative
sats, instantiating the sum equation and the monotonicity clause. -/
theorem add_total_props_witness :
    (runAdds SatTracker.new [("Zaps", 600), ("Boostboard", 500)]).total =
        SatTracker.new.total +
          ([(("Zaps" : String), (600 : Int)), ("Boostboard", 500)].map Prod.snd).sum ∧
      SatTracker.new.total ≤
        (runAdds SatTracker.new [("Zaps", 600), ("Boostboard", 500)]).total :=
  ⟨add_total_props.2.1 SatTracker.new [("Zaps", 600), ("Boostboard", 500)],
    add_total_props.2.2.1 SatTracker.new [("Zaps", 600), ("Boostboard", 500)]
      (by decide)⟩

lemma should_trigger_isSome (t : SatTracker) (p n th : Int) (tm : Bool)
    (h : 0 < th) :
    (t.should_trigger_threshold p n th tm).isSome = true := by
  unfold SatTracker.should_trigger_threshold
  by_cases h1 : n < th
  · simp [h1]
  · cases tm with
    | true =>
      simp only [h1, if_false, if_true]
      rw [rdiv_pos _ _ h, rdiv_pos _ _ h]
      by_cases h2 : Int.tdiv n th > Int.tdiv p th <;> simp [h2]
    | false => simp [h1]

lemma update_isSome (t : SatTracker) (th : Int) (tm : Bool) (h : 0 < th) :
    (t.update_last_triggered_threshold th tm).isSome = true := by
  unfold SatTracker.update_last_triggered_threshold
  cases tm with
  | true =>
    simp only [if_true]
    rw [rdiv_pos _ _ h]
    rfl
  | false => simp

lemma checkTotalThreshold_isSome (tr : Option SatTracker) (th : Int)
    (tm : Bool) (amt : Int) (h : 0 < th) :
    (checkTotalThreshold tr th tm amt).isSome = true := by
  cases tr with
  | none => rfl
  | some t =>
    cases hs : t.should_trigger_threshold (t.get_total - amt) t.get_total th tm with
    | none =>
      have := should_trigger_isSome t (t.get_total - amt) t.get_total th tm h
      rw [hs] at this
      cases this
    | some b =>
      cases b with
      | true =>
        cases hu : t.update_last_triggered_threshold th tm with
        | none =>
          have := update_isSome t th tm h
          rw [hu] at this
          cases this
        | some t' => simp [checkTotalThreshold, hs, hu]
      | false => simp [checkTotalThreshold, hs]

lemma firstPassStep_isSome (sats : Int) (d : Nat) (toggle : Toggle)
    (tr : Option SatTracker) :
    (firstPassStep sats d toggle tr).isSome = true := by
  unfold firstPassStep
  by_cases hth : toggle.threshold > 0
  · simp only [hth, if_true]
    cases hc : checkTotalThreshold tr toggle.threshold toggle.trigger_multiple sats with
    | none =>
      have := checkTotalThreshold_isSome tr toggle.threshold
        toggle.trigger_multiple sats hth
      rw [hc] at this
      cases this
    | some r =>
      obtain ⟨should, tr'⟩ := r
      cases should <;> simp [digitOk] <;> split <;> rfl
  · simp only [hth, if_false]
    by_cases hr : toggle.endswith_range.isSome <;> simp [hr] <;> split <;> rfl

lemma firstPass_isSome (sats : Int) (d : Nat) :
    ∀ (l : List Toggle) (tr : Option SatTracker),
      (firstPass sats d tr l).isSome = true := by
  intro l
  induction l with
  | nil => intro tr; rfl
  | cons toggle rest ih =>
    intro tr
    unfold firstPass
    cases hs : firstPassStep sats d toggle tr with
    | none =>
      have := firstPassStep_isSome sats d toggle tr
      rw [hs] at this
      cases this
    | some r =>
      obtain ⟨fired, tr'⟩ := r
      cases hrest : firstPass sats d tr' rest with
      | none =>
        have := ih tr'
        rw [hrest] at this
        cases this
      | some r' => simp [hrest]

lemma trigger_toggles_isSome (toggles : Option (List Toggle)) (sats : Int)
    (tr : Option SatTracker) :
    (trigger_toggles toggles sats tr).isSome = true := by
  cases toggles with
  | none => rfl
  | some ts =>
    unfold trigger_toggles
    cases hf : firstPass sats (lastDigit sats) tr (ts.filter fun t => !t.is_default) with
    | none =>
      have := firstPass_isSome sats (lastDigit sats)
        (ts.filter fun t => !t.is_default) tr
      rw [hf] at this
      cases this
    | some r =>
      obtain ⟨fired, tr'⟩ := r
      cases fired <;> simp [hf]

/-- A non-default `use_total` toggle whose config leaves `threshold` and
`trigger_multiple` to their serde defaults (`0` and `true`). -/
def c9Toggle : Toggle :=
  { threshold := Toggle.defaultThreshold, output := "osc", is_default := false,
    use_total := true, trigger_multiple := Toggle.defaultTriggerMultiple,
    endswith_range := none }

/-- Counterexample to C9 as stated: `sync_threshold_triggers` passes the
pair `(0, true)` of a non-default `use_total` toggle with defaulted
threshold straight to `sync_trigger_state`, which divides the total by the
zero threshold — the modelled panic (`none`), i.e. a reachable
division-by-zero. -/
theorem division_by_zero_reachable :
    c9Toggle.threshold = 0 ∧ c9Toggle.use_total = true ∧
      c9Toggle.is_default = false ∧
      sync_threshold_triggers (some [c9Toggle]) SatTracker.new = none := by
  decide

/-- C9 (amended): the divisions reached through `trigger_toggles` are all
guarded — its threshold check runs only for `threshold > 0`, so the toggle
policy can never panic on a division — but `sync_threshold_triggers` does
not filter `threshold > 0`, and a configuration with a non-default
`use_total` toggle whose threshold is left at its serde default 0 reaches a
division by zero inside `sync_trigger_state`. -/
theorem threshold_divisions_guarded :
    (∀ (toggles : Option (List Toggle)) (sats : Int) (tr : Option SatTracker),
      (trigger_toggles toggles sats tr).isSome = true) ∧
    sync_threshold_triggers (some [c9Toggle]) SatTracker.new = none :=
  ⟨trigger_toggles_isSome, by decide⟩

/-- A non-default total-threshold toggle with digit filter (0,3), as in the
spec's digit-range scenario. -/
def c2Toggle : Toggle :=
  { threshold := 1000, output := "osc", is_default := false, use_total := true,
    trigger_multiple := true, endswith_range := some (0, 3) }

/-- A tracker that has just crossed 1000 (total 1100) with empty trigger
memory. -/
def c2Tracker : SatTracker :=
  { total := 1100, by_source := [("Boostboard", 1100)],
    last_triggered_multiple := [], triggered_once := [] }

/-- Counterexample to C2 as stated: a boost of 1007 (last digit 7, excluded
by the (0,3) range) processed against `c2Toggle` is skipped — nothing
fires — yet the trigger memory for threshold 1000 is recorded anyway,
because `trigger_toggles` runs `check_total_threshold` (which records
memory on a firing threshold check) before the digit filter. -/
theorem digit_skip_mutates_memory :
    trigger_toggles (some [c2Toggle]) 1007 (some c2Tracker) =
      some ([], some { c2Tracker with last_triggered_multiple := [(1000, 1)] }) ∧
    alookup c2Tracker.last_triggered_multiple 1000 = none := by
  decide

lemma firstPassStep_fired_digitOk (sats : Int) (d : Nat) (toggle : Toggle)
    (tr tr' : Option SatTracker)
    (h : firstPassStep sats d toggle tr = some (true, tr')) :
    digitOk toggle.endswith_range d = true := by
  by_cases hd : digitOk toggle.endswith_range d = true
  · exact hd
  · exfalso
    unfold firstPassStep at h
    cases hc : (if toggle.threshold > 0 then
        checkTotalThreshold tr toggle.threshold toggle.trigger_multiple sats
      else if toggle.endswith_range.isSome then some (true, tr)
      else some (false, tr)) with
    | none => rw [hc] at h; cases h
    | some r =>
      obtain ⟨should, tr₁⟩ := r
      rw [hc] at h
      cases should with
      | true => simp [hd] at h
      | false => simp at h

lemma firstPass_fired_digitOk (sats : Int) (d : Nat) :
    ∀ (l : List Toggle) (tr : Option SatTracker) (fired : List Toggle)
      (tr' : Option SatTracker), firstPass sats d tr l = some (fired, tr') →
      ∀ t ∈ fired, digitOk t.endswith_range d = true := by
  intro l
  induction l with
  | nil =>
    intro tr fired tr' h t ht
    simp [firstPass] at h
    rw [h.1] at ht
    cases ht
  | cons toggle rest ih =>
    intro tr fired tr' h t ht
    unfold firstPass at h
    cases hs : firstPassStep sats d toggle tr with
    | none => rw [hs] at h; cases h
    | some r =>
      obtain ⟨f, tr₁⟩ := r
      rw [hs] at h
      cases hrest : firstPass sats d tr₁ rest with
      | none => simp [hrest] at h
      | some r' =>
        obtain ⟨fs, tr₂⟩ := r'
        simp only [hrest, Option.some_inj, Prod.mk.injEq] at h
        rw [← h.1] at ht
        rcases List.mem_append.mp ht with hl | hr
        · cases f with
          | true =>
            simp at hl
            rw [hl]
            exact firstPassStep_fired_digitOk sats d toggle tr tr₁ hs
          | false => simp at hl
        · exact ih tr₁ fs tr₂ hrest t hr

/-- C2 (amended): a toggle whose `endswith_range` excludes the boost's last
digit never fires (no fired toggle fails the digit test, in either pass);
for a skipped non-threshold toggle the tracker is completely untouched; but
for a skipped toggle with `threshold > 0` the threshold check still runs
first and its trigger-memory side effect is retained — processing the
toggle behaves exactly like `check_total_threshold` with the fired flag
forced to false. -/
theorem digit_skip_policy :
    (∀ (ts : List Toggle) (sats : Int) (tr : Option SatTracker)
      (fired : List Toggle) (tr'' : Option SatTracker),
      trigger_toggles (some ts) sats tr = some (fired, tr'') →
      ∀ t ∈ fired, digitOk t.endswith_range (lastDigit sats) = true) ∧
    (∀ (toggle : Toggle) (sats : Int) (tr : Option SatTracker),
      digitOk toggle.endswith_range (lastDigit sats) = false →
      toggle.threshold ≤ 0 →
      firstPassStep sats (lastDigit sats) toggle tr = some (false, tr)) ∧
    (∀ (toggle : Toggle) (sats : Int) (tr : Option SatTracker),
      digitOk toggle.endswith_range (lastDigit sats) = false →
      0 < toggle.threshold →
      firstPassStep sats (lastDigit sats) toggle tr =
        (checkTotalThreshold tr toggle.threshold toggle.trigger_multiple
          sats).map (fun r => (false, r.2))) := by
  refine ⟨?_, ?_, ?_⟩
  · intro ts sats tr fired tr'' h t ht
    simp only [trigger_toggles] at h
    cases hf : firstPass sats (lastDigit sats) tr
        (ts.filter fun t => !t.is_default) with
    | none => simp [hf] at h
    | some r =>
      obtain ⟨f1, tr₁⟩ := r
      simp only [hf] at h
      by_cases he : f1.isEmpty = true
      · rw [if_pos he] at h
        simp only [Option.some_inj, Prod.mk.injEq] at h
        rw [← h.1] at ht
        simp only [defaultPass] at ht
        have h3 := List.of_mem_filter ht
        exact h3
      · rw [if_neg he] at h
        simp only [Option.some_inj, Prod.mk.injEq] at h
        rw [← h.1] at ht
        exact firstPass_fired_digitOk sats (lastDigit sats) _ tr f1 tr₁ hf t ht
  · intro toggle sats tr hd hth
    unfold firstPassStep
    have h1 : ¬ (toggle.threshold > 0) := by omega
    simp only [h1, if_false]
    have h2 : toggle.endswith_range.isSome = true := by
      cases hr : toggle.endswith_range with
      | none => rw [hr] at hd; simp [digitOk] at hd
      | some p => rfl
    simp [h2, hd]
  · intro toggle sats tr hd hth
    unfold firstPassStep
    simp only [hth, if_true]
    cases hc : checkTotalThreshold tr toggle.threshold toggle.trigger_multiple sats with
    | none => rfl
    | some r =>
      obtain ⟨should, tr₁⟩ := r
      cases should <;> simp [hd]

/-- Witness for C2 (amended): the 1007-sats digit-skip scenario, where
processing the toggle reduces to the bare threshold check with no firing. -/
theorem digit_skip_policy_witness :
    digitOk c2Toggle.endswith_range (lastDigit 1007) = false ∧
      (0 : Int) < c2Toggle.threshold ∧
      firstPassStep 1007 (lastDigit 1007) c2Toggle (some c2Tracker) =
        (checkTotalThreshold (some c2Tracker) c2Toggle.threshold
          c2Toggle.trigger_multiple 1007).map (fun r => (false, r.2)) :=
  ⟨by decide, by decide,
    digit_skip_policy.2.2 c2Toggle 1007 (some c2Tracker) (by decide) (by decide)⟩

/-- A non-default toggle with `use_total = false` and a positive threshold. -/
def c3Toggle : Toggle :=
  { threshold := 1000, output := "osc", is_default := false,
    use_total := false, trigger_multiple := true, endswith_range := none }

/-- C3 evaluated at the failing input: `trigger_toggles` checks every
non-default toggle with `threshold > 0` against the shared cumulative total,
ignoring `use_total` — the `use_total = false` toggle is consulted via
`should_trigger_threshold`, fires off the tracker total, and records
threshold trigger memory, while `sync_threshold_triggers` (which does
filter on `use_total`) skips the very same toggle. -/
theorem use_total_ignored_by_policy :
    c3Toggle.use_total = false ∧ c3Toggle.is_default = false ∧
      trigger_toggles (some [c3Toggle]) 1100 (some c2Tracker) =
        some ([c3Toggle],
          some { c2Tracker with last_triggered_multiple := [(1000, 1)] }) ∧
      sync_threshold_triggers (some [c3Toggle]) c2Tracker = some c2Tracker := by
  decide

/-- The trigger memory for a multiple-threshold is seeded at the current
total's multiple. -/
def lastOkAt (t : SatTracker) (th : Int) : Prop :=
  alookup t.last_triggered_multiple th = some (Int.tdiv t.total th)

/-- The trigger memory for a once-threshold is set. -/
def onceOkAt (t : SatTracker) (th : Int) : Prop :=
  alookup t.triggered_once th = some true

lemma update_sets (t : SatTracker) (th : Int) (tm : Bool) (t' : SatTracker)
    (h : t.update_last_triggered_threshold th tm = some t') :
    t'.total = t.total ∧
    (tm = true → lastOkAt t' th) ∧
    (tm = false → onceOkAt t' th) ∧
    (∀ th0, lastOkAt t th0 → lastOkAt t' th0) ∧
    (∀ th0, onceOkAt t th0 → onceOkAt t' th0) := by
  unfold SatTracker.update_last_triggered_threshold at h
  cases tm with
  | true =>
    simp only [if_true] at h
    cases hr : rdiv? t.total th with
    | none => rw [hr] at h; cases h
    | some m =>
      rw [hr] at h
      have hm : m = Int.tdiv t.total th := by
        unfold rdiv? at hr
        by_cases hc : th = 0 ∨ (t.total = -i64half ∧ th = -1)
        · rw [if_pos hc] at hr; cases hr
        · rw [if_neg hc] at hr; exact (Option.some_inj.mp hr).symm
      cases h
      refine ⟨rfl, fun _ => ?_, fun hf => Bool.noConfusion hf,
        fun th0 hl => ?_, fun th0 ho => ho⟩
      · show alookup (ainsert t.last_triggered_multiple th m) th =
          some (Int.tdiv t.total th)
        rw [alookup_ainsert_self, hm]
      · show alookup (ainsert t.last_triggered_multiple th m) th0 =
          some (Int.tdiv t.total th0)
        by_cases hth : th = th0
        · subst hth; rw [alookup_ainsert_self, hm]
        · rw [alookup_ainsert_ne _ _ _ _ hth]; exact hl
  | false =>
    simp only [Bool.false_eq_true, if_false] at h
    cases h
    refine ⟨rfl, fun hf => Bool.noConfusion hf, fun _ => ?_,
      fun th0 hl => hl, fun th0 ho => ?_⟩
    · show alookup (ainsert t.triggered_once th true) th = some true
      rw [alookup_ainsert_self]
    · show alookup (ainsert t.triggered_once th true) th0 = some true
      by_cases hth : th = th0
      · subst hth; rw [alookup_ainsert_self]
      · rw [alookup_ainsert_ne _ _ _ _ hth]; exact ho

lemma check_none (th : Int) (tm : Bool) (amt : Int) :
    checkTotalThreshold none th tm amt = some (false, none) := rfl

lemma check_effects (t : SatTracker) (th : Int) (tm : Bool) (amt : Int)
    (b : Bool) (tr' : Option SatTracker)
    (h : checkTotalThreshold (some t) th tm amt = some (b, tr')) :
    ∃ t', tr' = some t' ∧ t'.total = t.total ∧
      (b = true → (tm = true → lastOkAt t' th) ∧ (tm = false → onceOkAt t' th)) ∧
      (∀ th0, lastOkAt t th0 → lastOkAt t' th0) ∧
      (∀ th0, onceOkAt t th0 → onceOkAt t' th0) := by
  cases hs : t.should_trigger_threshold (t.get_total - amt) t.get_total th tm with
  | none => simp [checkTotalThreshold, hs] at h
  | some should =>
    cases should with
    | true =>
      cases hu : t.update_last_triggered_threshold th tm with
      | none => simp [checkTotalThreshold, hs, hu] at h
      | some t' =>
        have hb : b = true ∧ tr' = some t' := by
          simp [checkTotalThreshold, hs, hu] at h
          exact ⟨h.1, h.2.symm⟩
        obtain ⟨hb1, hb2⟩ := hb
        obtain ⟨h1, h2, h3, h4, h5⟩ := update_sets t th tm t' hu
        exact ⟨t', hb2, h1, fun _ => ⟨h2, h3⟩, h4, h5⟩
    | false =>
      have hb : b = false ∧ tr' = some t := by
        simp [checkTotalThreshold, hs] at h
        exact ⟨h.1, h.2.symm⟩
      obtain ⟨hb1, hb2⟩ := hb
      subst hb1
      exact ⟨t, hb2, rfl, fun hf => Bool.noConfusion hf,
        fun _ hl => hl, fun _ ho => ho⟩

lemma firstPassStep_cases (sats : Int) (d : Nat) (toggle : Toggle)
    (tr : Option SatTracker) (b : Bool) (tr' : Option SatTracker)
    (h : firstPassStep sats d toggle tr = some (b, tr')) :
    (toggle.threshold > 0 ∧ ∃ should,
      checkTotalThreshold tr toggle.threshold toggle.trigger_multiple sats =
        some (should, tr') ∧
      b = (should && digitOk toggle.endswith_range d)) ∨
    (¬ toggle.threshold > 0 ∧ tr' = tr ∧
      b = (toggle.endswith_range.isSome && digitOk toggle.endswith_range d)) := by
  unfold firstPassStep at h
  by_cases hth : toggle.threshold > 0
  · simp only [hth, if_true] at h
    left
    refine ⟨hth, ?_⟩
    cases hc : checkTotalThreshold tr toggle.threshold toggle.trigger_multiple sats with
    | none => rw [hc] at h; cases h
    | some r =>
      obtain ⟨should, tr₁⟩ := r
      rw [hc] at h
      refine ⟨should, ?_⟩
      cases should with
      | true =>
        by_cases hd : digitOk toggle.endswith_range d = true
        · simp only [if_true, hd] at h
          simp only [Option.some_inj, Prod.mk.injEq] at h
          rw [← h.1, ← h.2, hd]
          exact ⟨rfl, rfl⟩
        · have hd' : digitOk toggle.endswith_range d = false := by
            simpa using hd
          simp only [if_true, hd'] at h
          simp only [Bool.false_eq_true, if_false, Option.some_inj,
            Prod.mk.injEq] at h
          rw [← h.1, ← h.2, hd']
          exact ⟨rfl, by simp⟩
      | false =>
        simp only [Bool.false_eq_true, if_false, Option.some_inj,
          Prod.mk.injEq] at h
        rw [← h.1, ← h.2]
        exact ⟨rfl, by simp⟩
  · simp only [hth, if_false] at h
    right
    refine ⟨hth, ?_⟩
    by_cases hr : toggle.endswith_range.isSome = true
    · simp only [hr, if_true] at h
      by_cases hd : digitOk toggle.endswith_range d = true
      · simp only [hd, if_true, Option.some_inj, Prod.mk.injEq] at h
        rw [← h.1, ← h.2, hr, hd]
        exact ⟨rfl, rfl⟩
      · have hd' : digitOk toggle.endswith_range d = false := by
          simpa using hd
        simp only [hd', Bool.false_eq_true, if_false, Option.some_inj,
          Prod.mk.injEq] at h
        rw [← h.1, ← h.2, hd']
        exact ⟨rfl, by simp⟩
    · have hr' : toggle.endswith_range.isSome = false := by
        simpa using hr
      simp only [hr', Bool.false_eq_true, if_false, Option.some_inj,
        Prod.mk.injEq] at h
      rw [← h.1, ← h.2, hr']
      exact ⟨rfl, by simp⟩

lemma step_effects (sats : Int) (d : Nat) (toggle : Toggle)
    (tr : Option SatTracker) (b : Bool) (tr' : Option SatTracker)
    (h : firstPassStep sats d toggle tr = some (b, tr')) :
    (tr = none → tr' = none) ∧
    (∀ t, tr = some t → ∃ t', tr' = some t' ∧ t'.total = t.total ∧
      (b = true → 0 < toggle.threshold →
        (toggle.trigger_multiple = true → lastOkAt t' toggle.threshold) ∧
        (toggle.trigger_multiple = false → onceOkAt t' toggle.threshold)) ∧
      (∀ th0, lastOkAt t th0 → lastOkAt t' th0) ∧
      (∀ th0, onceOkAt t th0 → onceOkAt t' th0)) := by
  rcases firstPassStep_cases sats d toggle tr b tr' h with
    ⟨hth, should, hc, hb⟩ | ⟨hth, htr, hb⟩
  · constructor
    · intro htr
      subst htr
      rw [check_none] at hc
      simp only [Option.some_inj, Prod.mk.injEq] at hc
      exact hc.2.symm
    · intro t ht
      subst ht
      obtain ⟨t', h1, h2, h3, h4, h5⟩ := check_effects t toggle.threshold
        toggle.trigger_multiple sats should tr' hc
      refine ⟨t', h1, h2, fun hbt _ => ?_, h4, h5⟩
      have hsh : should = true := by
        rw [hbt] at hb
        cases should
        · simp at hb
        · rfl
      exact h3 hsh
  · constructor
    · intro h0
      exact htr.trans h0
    · intro t ht
      exact ⟨t, htr.trans ht, rfl, fun _ hpos => absurd hpos hth,
        fun _ hl => hl, fun _ ho => ho⟩

lemma firstPass_fired_mem (sats : Int) (d : Nat) :
    ∀ (l : List Toggle) (tr : Option SatTracker) (fired : List Toggle)
      (tr' : Option SatTracker), firstPass sats d tr l = some (fired, tr') →
      ∀ t ∈ fired, t ∈ l := by
  intro l
  induction l with
  | nil =>
    intro tr fired tr' h t ht
    simp [firstPass] at h
    rw [h.1] at ht
    cases ht
  | cons toggle rest ih =>
    intro tr fired tr' h t ht
    unfold firstPass at h
    cases hs : firstPassStep sats d toggle tr with
    | none => rw [hs] at h; cases h
    | some r =>
      obtain ⟨f, tr₁⟩ := r
      rw [hs] at h
      cases hrest : firstPass sats d tr₁ rest with
      | none => simp [hrest] at h
      | some r' =>
        obtain ⟨fs, tr₂⟩ := r'
        simp only [hrest, Option.some_inj, Prod.mk.injEq] at h
        rw [← h.1] at ht
        rcases List.mem_append.mp ht with hl | hr
        · cases f with
          | true =>
            simp at hl
            rw [hl]
            exact List.mem_cons_self _ _
          | false => simp at hl
        · exact List.mem_cons_of_mem _ (ih tr₁ fs tr₂ hrest t hr)

lemma firstPass_effects (sats : Int) (d : Nat) :
    ∀ (l : List Toggle) (tr : Option SatTracker) (fired : List Toggle)
      (tr' : Option SatTracker),
      firstPass sats d tr l = some (fired, tr') →
      (tr = none → tr' = none) ∧
      (∀ t0, tr = some t0 → ∃ tF, tr' = some tF ∧ tF.total = t0.total ∧
        (∀ th0, lastOkAt t0 th0 → lastOkAt tF th0) ∧
        (∀ th0, onceOkAt t0 th0 → onceOkAt tF th0) ∧
        ∀ tg ∈ fired, 0 < tg.threshold →
          (tg.trigger_multiple = true → lastOkAt tF tg.threshold) ∧
          (tg.trigger_multiple = false → onceOkAt tF tg.threshold)) := by
  intro l
  induction l with
  | nil =>
    intro tr fired tr' h
    simp [firstPass] at h
    obtain ⟨h1, h2⟩ := h
    constructor
    · intro h0; rw [← h2, h0]
    · intro t0 ht
      refine ⟨t0, by rw [← h2, ht], rfl, fun _ hl => hl, fun _ ho => ho, ?_⟩
      intro tg htg
      rw [h1] at htg
      cases htg
  | cons toggle rest ih =>
    intro tr fired tr' h
    unfold firstPass at h
    cases hs : firstPassStep sats d toggle tr with
    | none => rw [hs] at h; cases h
    | some r =>
      obtain ⟨f, tr₁⟩ := r
      rw [hs] at h
      cases hrest : firstPass sats d tr₁ rest with
      | none => simp [hrest] at h
      | some r' =>
        obtain ⟨fs, tr₂⟩ := r'
        simp only [hrest, Option.some_inj, Prod.mk.injEq] at h
        obtain ⟨hf1, hf2⟩ := h
        obtain ⟨hsn, hss⟩ := step_effects sats d toggle tr f tr₁ hs
        obtain ⟨hrn, hrs⟩ := ih tr₁ fs tr₂ hrest
        constructor
        · intro h0
          rw [← hf2]
          exact hrn (hsn h0)
        · intro t0 ht
          obtain ⟨t1, he1, he2, hmem1, hpre1, hpre2⟩ := hss t0 ht
          obtain ⟨tF, hg1, hg2, hpre3, hpre4, hmem2⟩ := hrs t1 he1
          refine ⟨tF, by rw [← hf2]; exact hg1, by rw [hg2, he2],
            fun th0 hl => hpre3 th0 (hpre1 th0 hl),
            fun th0 ho => hpre4 th0 (hpre2 th0 ho), ?_⟩
          intro tg htg hpos
          rw [← hf1] at htg
          rcases List.mem_append.mp htg with hl | hr2
          · cases f with
            | true =>
              simp at hl
              subst hl
              have hm := hmem1 rfl hpos
              exact ⟨fun htm => hpre3 _ (hm.1 htm), fun htm => hpre4 _ (hm.2 htm)⟩
            | false => simp at hl
          · exact hmem2 tg hr2 hpos

/-- C5: for every processed boost, if the non-default pass fires any toggle
then the default toggles are not evaluated (the result is exactly the
non-default pass's fired list, all non-default); if it fires none, every
default toggle whose `endswith_range` admits the boost's last digit fires
(no single-winner selection); and every fired threshold toggle has its own
trigger memory recorded in the final tracker (per-threshold, independent of
the other fired toggles). -/
theorem toggle_policy_spec (toggles : List Toggle) (sats : Int)
    (tr : Option SatTracker) (firedF : List Toggle) (trF : Option SatTracker)
    (h : firstPass sats (lastDigit sats) tr
      (toggles.filter fun t => !t.is_default) = some (firedF, trF)) :
    (firedF ≠ [] →
      trigger_toggles (some toggles) sats tr = some (firedF, trF) ∧
      ∀ t ∈ firedF, t.is_default = false) ∧
    (firedF = [] →
      trigger_toggles (some toggles) sats tr =
        some (defaultPass toggles (lastDigit sats), trF) ∧
      ∀ t ∈ toggles, t.is_default = true →
        digitOk t.endswith_range (lastDigit sats) = true →
        t ∈ defaultPass toggles (lastDigit sats)) ∧
    (∀ tF, trF = some tF → ∀ tg ∈ firedF, 0 < tg.threshold →
      (tg.trigger_multiple = true → lastOkAt tF tg.threshold) ∧
      (tg.trigger_multiple = false → onceOkAt tF tg.threshold)) := by
  refine ⟨?_, ?_, ?_⟩
  · intro hne
    have he : firedF.isEmpty = false := by
      cases firedF
      · exact absurd rfl hne
      · rfl
    constructor
    · simp [trigger_toggles, h, he]
    · intro t ht
      have hmem := firstPass_fired_mem sats (lastDigit sats) _ tr firedF trF h t ht
      have h2 := List.of_mem_filter hmem
      simp at h2
      exact h2
  · intro hem
    subst hem
    constructor
    · simp [trigger_toggles, h]
    · intro t htg hd1 hd2
      unfold defaultPass
      exact List.mem_filter.mpr ⟨List.mem_filter.mpr ⟨htg, hd1⟩, hd2⟩
  · intro tF htrF tg htg hpos
    obtain ⟨hn, hsfun⟩ := firstPass_effects sats (lastDigit sats) _ tr firedF trF h
    cases tr with
    | none =>
      have h0 := hn rfl
      rw [h0] at htrF
      cases htrF
    | some t0 =>
      obtain ⟨tF', hg1, hg2, hg3, hg4, hg5⟩ := hsfun t0 rfl
      rw [htrF] at hg1
      have heq : tF' = tF := (Option.some_inj.mp hg1).symm
      subst heq
      exact hg5 tg htg hpos

/-- A 500-threshold multiple toggle. -/
def c5ToggleA : Toggle :=
  { threshold := 500, output := "osc", is_default := false, use_total := true,
    trigger_multiple := true, endswith_range := none }

/-- A 1000-threshold multiple toggle. -/
def c5ToggleB : Toggle :=
  { threshold := 1000, output := "wled", is_default := false, use_total := true,
    trigger_multiple := true, endswith_range := none }

/-- Tracker at total 1100 with empty trigger memory. -/
def c5Tracker : SatTracker :=
  { total := 1100, by_source := [("Test", 1100)],
    last_triggered_multiple := [], triggered_once := [] }

/-- Tracker after both thresholds fired on the 1100-sats boost. -/
def c5TrackerAfter : SatTracker :=
  { c5Tracker with last_triggered_multiple := [(500, 2), (1000, 1)] }

/-- Witness for C5: a boost of 1100 sats fires both the 500- and
1000-threshold toggles independently, each recording its own multiple, and
the default pass is suppressed. -/
theorem toggle_policy_spec_witness :
    ([c5ToggleA, c5ToggleB] ≠ ([] : List Toggle)) ∧
    trigger_toggles (some [c5ToggleA, c5ToggleB]) 1100 (some c5Tracker) =
      some ([c5ToggleA, c5ToggleB], some c5TrackerAfter) ∧
    (∀ t ∈ [c5ToggleA, c5ToggleB], t.is_default = false) ∧
    lastOkAt c5TrackerAfter 500 ∧ lastOkAt c5TrackerAfter 1000 := by
  have h := toggle_policy_spec [c5ToggleA, c5ToggleB] 1100 (some c5Tracker)
    [c5ToggleA, c5ToggleB] (some c5TrackerAfter) (by decide)
  have h1 := h.1 (by decide)
  have h3 := h.2.2 c5TrackerAfter rfl
  exact ⟨by decide, h1.1, h1.2,
    (h3 c5ToggleA (by decide) (by decide)).1 rfl,
    (h3 c5ToggleB (by decide) (by decide)).1 rfl⟩

/-- The two delivery phases of a listener: historical backfill and the live
subscription. -/
inductive Phase where
  | backfill
  | live
deriving Repr, DecidableEq

/-- `process_boost` from `src/main.rs`: always add to the tracker and report
the new total; invoke effect triggering only when `trigger_effects_flag` is
set.  Returns (updated tracker, new total, whether `trigger_effects` was
invoked). -/
def process_boost (t : SatTracker) (source : String) (sats : Int)
    (trigger_effects_flag : Bool) : SatTracker × Int × Bool :=
  let r := t.add source sats
  (r.1, r.2, trigger_effects_flag)

/-- The dispatch flag `listen_for_boostboard` passes to `process_boost`:
`false` for every boost from the stored-boost backfill, and
`event_ts >= subscription_start` for a live event. -/
def boostboardTriggerFlag (phase : Phase) (event_ts subscription_start : Int) :
    Bool :=
  match phase with
  | .backfill => false
  | .live => decide (event_ts ≥ subscription_start)

/-- The dispatch flag `listen_for_zaps` passes to `process_boost`: `true`
for every zap delivered by the subscription, regardless of the event
timestamp (the zaps listener has no backfill phase and ignores `is_old`). -/
def zapsTriggerFlag (event_ts subscription_start : Int) : Bool := true

/-- The dispatch flag `listen_for_nwc` passes to `process_boost`: `false`
during `load_previous_boosts`, `true` for every live subscription event,
with no timestamp comparison. -/
def nwcTriggerFlag (phase : Phase) (event_ts subscription_start : Int) : Bool :=
  match phase with
  | .backfill => false
  | .live => true

/-- Counterexample to C6 as stated: the Zaps listener dispatches a
subscription event whose timestamp 0 precedes the subscription start 10
(and the NWC live path does the same) — a dispatch is not restricted to
boosts with timestamp at or after the subscription start across every
source. -/
theorem pre_start_dispatch :
    zapsTriggerFlag 0 10 = true ∧ (0 : Int) < 10 ∧
      (process_boost SatTracker.new "Zaps" 100 (zapsTriggerFlag 0 10)).2.2 =
        true ∧
      nwcTriggerFlag .live 0 10 = true := by
  decide

/-- C6 (amended): for the Boostboard listener the dispatch flag is true only
for a live-phase event with timestamp at or after the subscription start;
`process_boost` always applies the boost to the tracker, reports the new
total, and invokes effect dispatch exactly when the flag is set; the NWC
listener never dispatches during backfill but dispatches every live event,
and the Zaps listener dispatches every event, both regardless of the event
timestamp. -/
theorem dispatch_flag_policy :
    (∀ (phase : Phase) (ts start : Int),
      boostboardTriggerFlag phase ts start = true →
        phase = Phase.live ∧ start ≤ ts) ∧
    (∀ (t : SatTracker) (source : String) (sats : Int) (flag : Bool),
      (process_boost t source sats flag).2.2 = flag ∧
      (process_boost t source sats flag).1.total = t.total + sats ∧
      (process_boost t source sats flag).2.1 = t.total + sats) ∧
    (∀ ts start : Int, nwcTriggerFlag .backfill ts start = false) ∧
    (∀ ts start : Int,
      nwcTriggerFlag .live ts start = true ∧ zapsTriggerFlag ts start = true) := by
  refine ⟨?_, fun t source sats flag => ⟨rfl, rfl, rfl⟩,
    fun ts start => rfl, fun ts start => ⟨rfl, rfl⟩⟩
  intro phase ts start h
  cases phase with
  | backfill => cases h
  | live =>
    refine ⟨rfl, ?_⟩
    have := of_decide_eq_true h
    omega

/-- Witness for C6 (amended): a live boostboard event at timestamp 10 with
subscription start 5 has a true flag, and the theorem yields the phase and
ordering facts. -/
theorem dispatch_flag_policy_witness :
    boostboardTriggerFlag .live 10 5 = true ∧
      (Phase.live = Phase.live ∧ (5 : Int) ≤ 10) :=
  ⟨by decide, dispatch_flag_policy.1 Phase.live 10 5 (by decide)⟩

/-- `Boostagram` from `src/boosts.rs`, restricted to the fields consulted by
the filters and the boost-processing control flow; Rust strings are
modelled as `List Char`. -/
structure Boostagram where
  action : List Char
  podcast : List Char
  episode_guid : List Char
  event_guid : List Char
  sats : Int
deriving Repr, DecidableEq

/-- `BoostFilters` from `src/boostboard.rs`; timestamps are already
converted to `i64` as at the comparison sites. -/
structure BoostFilters where
  podcasts : Option (List (List Char))
  episode_guids : Option (List (List Char))
  event_guids : Option (List (List Char))
  before : Option Int
  after : Option Int
deriving Repr, DecidableEq

/-- Rust `str::to_lowercase`, per character. -/
def lowerChars (s : List Char) : List Char := s.map Char.toLower

/-- Does the second list start with the first? -/
def startsWithL : List Char → List Char → Bool
  | [], _ => true
  | _ :: _, [] => false
  | p :: ps, c :: cs => p == c && startsWithL ps cs

/-- Rust `str::contains`: `containsSub pat hay` is true iff `pat` occurs as
a contiguous substring of `hay` (the empty pattern always matches). -/
def containsSub (pat : List Char) : List Char → Bool
  | [] => startsWithL pat []
  | c :: cs => startsWithL pat (c :: cs) || containsSub pat cs

/-- `BoostFilters::has_content_filters`. -/
def BoostFilters.has_content_filters (f : BoostFilters) : Bool :=
  f.podcasts.isSome || f.episode_guids.isSome || f.event_guids.isSome

/-- `BoostFilters::matches_boost`: the content check. -/
def BoostFilters.matches_boost (f : BoostFilters) (b : Boostagram) : Bool :=
  if !f.has_content_filters then
    true
  else
    let podcast_match := match f.podcasts with
      | none => false
      | some ps => ps.any fun p => containsSub (lowerChars p) (lowerChars b.podcast)
    let episode_match := match f.episode_guids with
      | none => false
      | some guids => !b.episode_guid.isEmpty && decide (b.episode_guid ∈ guids)
    let event_match := match f.event_guids with
      | none => false
      | some guids => !b.event_guid.isEmpty && decide (b.event_guid ∈ guids)
    podcast_match || episode_match || event_match

/-- `BoostFilters::matches_timestamp`: `after < ts < before`, strict, with a
missing bound unconstrained. -/
def BoostFilters.matches_timestamp (f : BoostFilters) (ts : Int) : Bool :=
  (match f.after with
   | none => true
   | some a => decide (ts > a)) &&
  (match f.before with
   | none => true
   | some bd => decide (ts < bd))

/-- The combined filter check as applied at both delivery sites
(`StoredBoosts::process_boosts` and `BoostBoard::handle_boosts`): timestamp
check AND content check. -/
def BoostFilters.matches (f : BoostFilters) (b : Boostagram) (ts : Int) : Bool :=
  f.matches_timestamp ts && f.matches_boost b

/-- The spec-side formula of claim C8, written from its words: the
timestamp check (strict bounds, missing bound unconstrained) AND the
content check (true when no content filter is configured, else the OR over
the configured kinds: case-insensitive substring match for podcast names,
exact match against the lists for the non-empty GUIDs). -/
def matchesSpec (f : BoostFilters) (b : Boostagram) (ts : Int) : Prop :=
  ((∀ a, f.after = some a → a < ts) ∧ (∀ bd, f.before = some bd → ts < bd)) ∧
  (if f.podcasts = none ∧ f.episode_guids = none ∧ f.event_guids = none then
    True
  else
    (∃ ps, f.podcasts = some ps ∧
      ∃ p ∈ ps, containsSub (lowerChars p) (lowerChars b.podcast) = true) ∨
    (∃ gs, f.episode_guids = some gs ∧ b.episode_guid ≠ [] ∧
      b.episode_guid ∈ gs) ∨
    (∃ gs, f.event_guids = some gs ∧ b.event_guid ≠ [] ∧ b.event_guid ∈ gs))

lemma matches_timestamp_iff (f : BoostFilters) (ts : Int) :
    f.matches_timestamp ts = true ↔
      (∀ a, f.after = some a → a < ts) ∧ (∀ bd, f.before = some bd → ts < bd) := by
  unfold BoostFilters.matches_timestamp
  rw [Bool.and_eq_true]
  constructor
  · rintro ⟨h1, h2⟩
    constructor
    · intro a ha
      rw [ha] at h1
      exact of_decide_eq_true h1
    · intro bd hbd
      rw [hbd] at h2
      exact of_decide_eq_true h2
  · rintro ⟨h1, h2⟩
    constructor
    · cases ha : f.after with
      | none => rfl
      | some a => exact decide_eq_true (h1 a ha)
    · cases hbd : f.before with
      | none => rfl
      | some bd => exact decide_eq_true (h2 bd hbd)

lemma matches_boost_iff (f : BoostFilters) (b : Boostagram) :
    f.matches_boost b = true ↔
      (if f.podcasts = none ∧ f.episode_guids = none ∧ f.event_guids = none then
        True
      else
        (∃ ps, f.podcasts = some ps ∧
          ∃ p ∈ ps, containsSub (lowerChars p) (lowerChars b.podcast) = true) ∨
        (∃ gs, f.episode_guids = some gs ∧ b.episode_guid ≠ [] ∧
          b.episode_guid ∈ gs) ∨
        (∃ gs, f.event_guids = some gs ∧ b.event_guid ≠ [] ∧
          b.event_guid ∈ gs)) := by
  by_cases hc : f.podcasts = none ∧ f.episode_guids = none ∧ f.event_guids = none
  · obtain ⟨hp, he, hv⟩ := hc
    rw [if_pos ⟨hp, he, hv⟩]
    unfold BoostFilters.matches_boost BoostFilters.has_content_filters
    rw [hp, he, hv]
    simp
  · rw [if_neg hc]
    have hcf : f.has_content_filters = true := by
      unfold BoostFilters.has_content_filters
      cases hp : f.podcasts with
      | some ps => simp
      | none =>
        cases he : f.episode_guids with
        | some gs => simp
        | none =>
          cases hv : f.event_guids with
          | some gs => simp
          | none => exact absurd ⟨hp, he, hv⟩ hc
    unfold BoostFilters.matches_boost
    rw [hcf]
    simp only [Bool.not_true, Bool.false_eq_true, if_false, Bool.or_eq_true]
    constructor
    · rintro ((h | h) | h)
      · left
        cases hp : f.podcasts with
        | none => rw [hp] at h; cases h
        | some ps =>
          rw [hp] at h
          obtain ⟨p, hp1, hp2⟩ := List.any_eq_true.mp h
          exact ⟨ps, rfl, p, hp1, hp2⟩
      · right; left
        cases he : f.episode_guids with
        | none => rw [he] at h; cases h
        | some gs =>
          rw [he] at h
          rw [Bool.and_eq_true] at h
          refine ⟨gs, rfl, ?_, of_decide_eq_true h.2⟩
          intro hemp
          rw [hemp] at h
          simp at h
      · right; right
        cases hv : f.event_guids with
        | none => rw [hv] at h; cases h
        | some gs =>
          rw [hv] at h
          rw [Bool.and_eq_true] at h
          refine ⟨gs, rfl, ?_, of_decide_eq_true h.2⟩
          intro hemp
          rw [hemp] at h
          simp at h
    · rintro (⟨ps, hps, p, hp1, hp2⟩ | ⟨gs, hgs, hne, hmem⟩ | ⟨gs, hgs, hne, hmem⟩)
      · left; left
        rw [hps]
        exact List.any_eq_true.mpr ⟨p, hp1, hp2⟩
      · left; right
        rw [hgs]
        rw [Bool.and_eq_true]
        refine ⟨?_, decide_eq_true hmem⟩
        cases hep : b.episode_guid with
        | nil => exact absurd hep hne
        | cons c cs => rfl
      · right
        rw [hgs]
        rw [Bool.and_eq_true]
        refine ⟨?_, decide_eq_true hmem⟩
        cases hep : b.event_guid with
        | nil => exact absurd hep hne
        | cons c cs => rfl

/-- C8: the combined filter check is exactly the conjunction of the strict
timestamp window and the content check, where the content check is true
when no content filter is configured and otherwise the OR over the
configured kinds (case-insensitive substring match of a configured podcast
name, exact list membership of the boost's non-empty episode/event GUID);
the check is a pure total function. -/
theorem boost_filters_matches_spec (f : BoostFilters) (b : Boostagram)
    (ts : Int) : f.matches b ts = true ↔ matchesSpec f b ts := by
  unfold BoostFilters.matches matchesSpec
  rw [Bool.and_eq_true, matches_timestamp_iff, matches_boost_iff]

/-- A non-default toggle with no threshold, eligible purely through its
digit range. -/
def c5ToggleE : Toggle :=
  { threshold := 0, output := "osc", is_default := false, use_total := false,
    trigger_multiple := true, endswith_range := some (0, 9) }

/-- A default toggle with no digit restriction. -/
def c5ToggleD : Toggle :=
  { threshold := 0, output := "wled", is_default := true, use_total := false,
    trigger_multiple := true, endswith_range := none }

/-- Counterexample to C5 as stated: with a non-default endswith-only toggle
(threshold 0) and a default toggle, a boost of 1002 fires the endswith-only
toggle; no threshold-based toggle fires (none is even configured), yet the
matching default toggle does not fire — any firing non-default toggle
suppresses the default pass, not only threshold-based ones. -/
theorem default_suppressed_without_threshold_fire :
    c5ToggleE.threshold = 0 ∧ c5ToggleE.is_default = false ∧
      c5ToggleD.is_default = true ∧
      digitOk c5ToggleD.endswith_range (lastDigit 1002) = true ∧
      trigger_toggles (some [c5ToggleE, c5ToggleD]) 1002 none =
        some ([c5ToggleE], none) := by
  decide
